import Mathlib

/-!
Shallow embedding of `src/app.py`, a Flask review service backed by a MySQL
table, together with theorems checking the specification's claims about it.

The embedding models:
* the JSON values that can appear in a request body (restricted to strings,
  integers and `null`; request bodies are association lists of field/value
  pairs, mirroring a JSON object);
* the pieces of Python semantics the handlers rely on (`str(x).strip()`
  truthiness, `int(x)` parsing and its exception behaviour);
* the `reviews` table as a list of rows plus the `AUTO_INCREMENT` counter,
  with commit/rollback modelled by only publishing changes to the committed
  state at the commit point, and medium failures modelled by an explicit
  failure-point parameter;
* the module's top-level statements, to settle the claim about the
  `db_configM` NameError at import time.
-/

namespace ReviewApp

/-- JSON values a request field can carry in this model: a string, an
integer, or `null` (Python `None`). -/
inductive JValue where
  | JStr (s : String)
  | JInt (n : Int)
  | JNull
  deriving DecidableEq, Repr

/-- A request body: a JSON object, i.e. an association list from field names
to values (first binding wins, as in a Python dict built from JSON). -/
abbrev ReqData := List (String × JValue)

/-- Python `field in data` / `data[field]`: first binding for the key. -/
def lookupField : ReqData → String → Option JValue
  | [], _ => none
  | p :: rest, f => if p.1 = f then some p.2 else lookupField rest f

/-- Whitespace for Python `str.strip()` with no argument: space, tab,
newline, carriage return, vertical tab and form feed (the ASCII part of
Python's definition; non-ASCII whitespace is outside this model's
alphabet). -/
def pyIsSpace (c : Char) : Bool :=
  c = ' ' || c = '\t' || c = '\n' || c = '\r' ||
  c = Char.ofNat 11 || c = Char.ofNat 12

/-- Drop leading whitespace characters. -/
def dropLeadingWS : List Char → List Char
  | [] => []
  | c :: cs => if pyIsSpace c then dropLeadingWS cs else c :: cs

/-- Python `s.strip()`: remove leading and trailing whitespace. -/
def pyStrip (s : String) : String :=
  ⟨(dropLeadingWS (dropLeadingWS s.toList).reverse).reverse⟩

/-- Truthiness of `str(v).strip()` (src/app.py line 107): `str` of a string
is itself, so only a whitespace-only string strips to the falsy `""`;
`str(n)` of an int is its nonempty decimal representation (never
whitespace), and `str(None) = "None"`, both truthy. -/
def strTruthy : JValue → Bool
  | .JStr s => !(pyStrip s = "")
  | .JInt _ => true
  | .JNull => true

/-- The required fields, in the order the handler checks them
(src/app.py line 105). -/
def requiredFields : List String := ["name", "email", "phone", "rating", "review"]

/-- One iteration of the validation loop: `field in data` and
`str(data[field]).strip()` truthy (src/app.py line 107). -/
def present (data : ReqData) (f : String) : Bool :=
  match lookupField data f with
  | none => false
  | some v => strTruthy v

/-- The first required field the loop at src/app.py lines 106-112 rejects,
if any. -/
def firstMissing (data : ReqData) : Option String :=
  requiredFields.find? (fun f => !present data f)

/-- Digit-or-underscore body of a Python decimal int literal: nonempty, all
characters digits or `_`, no leading/trailing underscore, no two adjacent
underscores (the grammar accepted by `int(str)` after sign and whitespace;
non-ASCII digits are outside this model's alphabet). -/
def intBodyOk (cs : List Char) : Bool :=
  !cs.isEmpty &&
  cs.all (fun c => c.isDigit || c = '_') &&
  !(cs.head? = some '_') &&
  !(cs.getLast? = some '_') &&
  (cs.zip cs.tail).all (fun p => !(p.1 = '_' && p.2 = '_'))

/-- Numeric value of a digit string, skipping underscores. -/
def digitsVal (cs : List Char) : Nat :=
  cs.foldl (fun a c => if c = '_' then a else a * 10 + (c.toNat - '0'.toNat)) 0

/-- Python `int(s)` for a string `s`: strip whitespace, optional sign, then
a decimal digit body; `none` models the `ValueError` raised otherwise. -/
def pyIntOfStr (s : String) : Option Int :=
  match (pyStrip s).toList with
  | '+' :: rest => if intBodyOk rest then some (digitsVal rest) else none
  | '-' :: rest => if intBodyOk rest then some (-(digitsVal rest : Int)) else none
  | cs => if intBodyOk cs then some (digitsVal cs) else none

/-- Outcome of evaluating `int(data[f])` (src/app.py line 115). `valueError`
is the exception the handler catches specifically (line 160); `otherExc`
covers exceptions that reach the generic `except Exception` handler instead:
`TypeError` from `int(None)` and `KeyError` from a missing key. -/
inductive PyIntRes where
  | ok (n : Int)
  | valueError
  | otherExc
  deriving DecidableEq, Repr

/-- Evaluate `int(data[f])`. -/
def pyIntField (data : ReqData) (f : String) : PyIntRes :=
  match lookupField data f with
  | none => .otherExc
  | some (.JStr s) =>
      match pyIntOfStr s with
      | some n => .ok n
      | none => .valueError
  | some (.JInt n) => .ok n
  | some .JNull => .otherExc

/-- A row of the `reviews` table (src/app.py lines 48-60). `gender` keeps
the JSON value passed verbatim to the INSERT (line 135 applies no `.strip()`
to it); `created_at` is the `NOW()` timestamp as seconds. -/
structure Review where
  id : Nat
  name : String
  email : String
  phone : String
  gender : JValue
  rating : Int
  review : String
  created_at : Nat
  deriving DecidableEq, Repr

/-- Committed state of the `reviews` table: its rows plus the
`AUTO_INCREMENT` counter for the next id. -/
structure DB where
  rows : List Review
  nextId : Nat
  deriving DecidableEq, Repr

/-- Where, if anywhere, the medium fails during a handler run:
`get_connection` raising, the statement execution raising, or the commit
raising. With `autocommit = False`, work before a failed commit is rolled
back and never reaches the committed state. -/
inductive FailPoint where
  | noFail
  | atGetConn
  | atExecute
  | atCommit
  deriving DecidableEq, Repr

/-- Result of the POST /api/reviews handler, with its HTTP status. -/
inductive AddResult where
  | created (id : Nat)
  | badRequest (msg : String)
  | serverError (msg : String)
  deriving DecidableEq, Repr

/-- HTTP status code carried by an `AddResult` (201 / 400 / 500). -/
def AddResult.status : AddResult → Nat
  | .created _ => 201
  | .badRequest _ => 400
  | .serverError _ => 500

/-- Validation phase of `add_review` (src/app.py lines 104-120): the
required-field loop, then `int(data['rating'])` with `ValueError` mapped to
400 "Invalid rating value" (line 160-165) and any other exception to the
generic 500 handler (lines 166-173), then the range check. Returns the
parsed rating on success. -/
def validateAdd (data : ReqData) : Except AddResult Int :=
  match firstMissing data with
  | some f => .error (.badRequest ("Missing or empty field: " ++ f))
  | none =>
      match pyIntField data "rating" with
      | .valueError => .error (.badRequest "Invalid rating value")
      | .otherExc => .error (.serverError "int() argument is not a string or a number")
      | .ok rating =>
          if rating < 1 ∨ rating > 5 then
            .error (.badRequest "Rating must be between 1 and 5")
          else
            .ok rating

/-- Build the row the INSERT at src/app.py lines 127-140 writes: the four
text fields are `.strip()`ped (which requires them to be Python strings —
`none` models the `AttributeError` raised otherwise), `gender` is
`data.get('gender', 'Not specified')` stored verbatim, `created_at` is
`NOW()`. -/
def buildRow (now id : Nat) (data : ReqData) (rating : Int) : Option Review :=
  match lookupField data "name", lookupField data "email",
        lookupField data "phone", lookupField data "review" with
  | some (.JStr n), some (.JStr e), some (.JStr p), some (.JStr rv) =>
      some { id := id, name := pyStrip n, email := pyStrip e, phone := pyStrip p,
             gender := (lookupField data "gender").getD (.JStr "Not specified"),
             rating := rating, review := pyStrip rv, created_at := now }
  | _, _, _, _ => none

/-- The POST /api/reviews handler `add_review` (src/app.py lines 95-178),
returning its response and the committed table state afterwards. A failure
at `get_connection` precedes the row construction; a failure at the INSERT
or at the commit is caught, rolled back and reported as 500, leaving the
committed rows untouched — but a failure at the commit happens after the
server-side INSERT already consumed an `AUTO_INCREMENT` value, which does
not roll back. -/
def add_review (now : Nat) (fp : FailPoint) (data : ReqData) (db : DB) :
    AddResult × DB :=
  match validateAdd data with
  | .error resp => (resp, db)
  | .ok rating =>
      match fp with
      | .atGetConn => (.serverError "Database error: connection failure", db)
      | .atExecute =>
          match buildRow now db.nextId data rating with
          | none => (.serverError "AttributeError: strip on a non-string", db)
          | some _ => (.serverError "Database error: execute failure", db)
      | .atCommit =>
          match buildRow now db.nextId data rating with
          | none => (.serverError "AttributeError: strip on a non-string", db)
          | some _ =>
              (.serverError "Database error: commit failure",
               { db with nextId := db.nextId + 1 })
      | .noFail =>
          match buildRow now db.nextId data rating with
          | none => (.serverError "AttributeError: strip on a non-string", db)
          | some row =>
              (.created db.nextId, ⟨db.rows ++ [row], db.nextId + 1⟩)

/-- ORDER BY created_at DESC as a relation: earlier rows have the larger
(or equal) timestamp. -/
def createdGE (a b : Review) : Prop := b.created_at ≤ a.created_at

instance : DecidableRel createdGE := fun a b => Nat.decLe b.created_at a.created_at

instance : IsTotal Review createdGE :=
  ⟨fun a b => (Nat.le_total b.created_at a.created_at).imp id id⟩

instance : IsTrans Review createdGE :=
  ⟨fun _ _ _ hab hbc => Nat.le_trans hbc hab⟩

/-- Result of the GET /api/reviews handler. -/
inductive GetResult where
  | ok (rows : List Review)
  | badRequest (msg : String)
  | serverError (msg : String)
  deriving DecidableEq, Repr

/-- The GET /api/reviews handler `get_reviews` (src/app.py lines 180-234):
validate `limit` to [1, 100] before touching the database, then SELECT
ordered by `created_at` DESC with LIMIT. Read-only: no state returned. -/
def get_reviews (fp : FailPoint) (limit : Int) (db : DB) : GetResult :=
  if limit < 1 ∨ limit > 100 then
    .badRequest "Limit must be between 1 and 100"
  else
    match fp with
    | .noFail => .ok ((List.insertionSort createdGE db.rows).take limit.toNat)
    | _ => .serverError "Database error"

/-- Result of the DELETE /api/reviews/{id} handler. -/
inductive DelResult where
  | deleted
  | notFound
  | serverError (msg : String)
  deriving DecidableEq, Repr

/-- HTTP status code carried by a `DelResult` (200 / 404 / 500). -/
def DelResult.status : DelResult → Nat
  | .deleted => 200
  | .notFound => 404
  | .serverError _ => 500

/-- The DELETE /api/reviews/{id} handler `delete_review` (src/app.py lines
236-283): DELETE FROM reviews WHERE id = rid, commit, then report 404 when
`cursor.rowcount` is 0 and 200 otherwise. The route's `<int:review_id>`
converter makes the id a natural number. DELETE does not reset the
`AUTO_INCREMENT` counter. -/
def delete_review (fp : FailPoint) (rid : Nat) (db : DB) : DelResult × DB :=
  match fp with
  | .noFail =>
      let remaining := db.rows.filter (fun r => !(r.id = rid))
      let rowcount := db.rows.length - remaining.length
      if rowcount = 0 then (.notFound, ⟨remaining, db.nextId⟩)
      else (.deleted, ⟨remaining, db.nextId⟩)
  | _ => (.serverError "Database error", db)

/-- ORDER BY rating DESC on the grouped ratings, as a relation on integers. -/
def intGE (a b : Int) : Prop := b ≤ a

instance : DecidableRel intGE := fun a b => Int.decLe b a

instance : IsTotal Int intGE := ⟨fun a b => (Int.le_total b a).imp id id⟩

instance : IsTrans Int intGE := ⟨fun _ _ _ hab hbc => Int.le_trans hbc hab⟩

/-- Result rows of `SELECT rating, COUNT(*) FROM reviews GROUP BY rating
ORDER BY rating DESC` (src/app.py lines 300-305): the distinct rating
values present, descending, each with its count. -/
def groupByRating (rows : List Review) : List (Int × Nat) :=
  (List.insertionSort intGE (rows.map (fun r => r.rating)).dedup).map
    (fun k => (k, rows.countP (fun r => r.rating = k)))

/-- The dict key the handler builds for a rating (src/app.py line 317). -/
def starKey (k : Int) : String := toString k ++ "_star"

/-- Python dict lookup on an insertion-ordered association list. -/
def dlookup : List (String × Nat) → String → Option Nat
  | [], _ => none
  | p :: rest, k => if p.1 = k then some p.2 else dlookup rest k

/-- Python dict assignment `d[k] = v`: overwrite the binding when the key
exists, otherwise append the new binding in insertion order. -/
def dictSet (d : List (String × Nat)) (k : String) (v : Nat) : List (String × Nat) :=
  if d.any (fun p => p.1 = k) then
    d.map (fun p => if p.1 = k then (k, v) else p)
  else d ++ [(k, v)]

/-- The `rating_dist` dict as initialised at src/app.py lines 308-314. -/
def starDict0 : List (String × Nat) :=
  [("5_star", 0), ("4_star", 0), ("3_star", 0), ("2_star", 0), ("1_star", 0)]

/-- The distribution dict after the loop at src/app.py lines 316-317. -/
def ratingDist (rows : List Review) : List (String × Nat) :=
  (groupByRating rows).foldl (fun d p => dictSet d (starKey p.1) p.2) starDict0

/-- Sum of the ratings, the numerator of `AVG(rating)`. -/
def ratingSum (rows : List Review) : Int :=
  (rows.map (fun r => r.rating)).sum

/-- Round-half-to-even of the fraction a / b (for b > 0), on integers. This
is both IEEE 754's default rounding (used below for binary64 conversion)
and the rounding CPython's `round` applies to the exact value of a double. -/
def rheDiv (a b : Int) : Int :=
  let q := a.fdiv b
  let r := a - q * b
  if 2 * r < b then q
  else if b < 2 * r then q + 1
  else if q % 2 = 0 then q else q + 1

/-- MySQL's decimal rounding (half away from zero) of a / b, for b > 0. -/
def mysqlRoundDiv (a b : Int) : Int :=
  if 0 ≤ a then (2 * a + b).fdiv (2 * b)
  else -((2 * (-a) + b).fdiv (2 * b))

/-- Fuelled floor-log2 (structural recursion so the kernel can evaluate
it). -/
def log2fuel : Nat → Nat → Nat
  | 0, _ => 0
  | fuel + 1, n => if n ≤ 1 then 0 else log2fuel fuel (n / 2) + 1

/-- Floor of log2 of a natural number (0 for 0). -/
def natLog2 (n : Nat) : Nat := log2fuel n n

/-- Floor of log2 of the fraction n / d, for n, d ≥ 1: the initial guess
from the integer logs is off by at most one, fixed by a single comparison. -/
def floorLog2Frac (n d : Nat) : Int :=
  let e0 : Int := (natLog2 n : Int) - (natLog2 d : Int)
  let belowGuess : Bool :=
    if 0 ≤ e0 then decide (n < d * 2 ^ e0.toNat)
    else decide (n * 2 ^ (-e0).toNat < d)
  if belowGuess then e0 - 1 else e0

/-- The binary64 double nearest to n / d > 0, as significand and exponent
(value m·2^e with 2^52 ≤ m ≤ 2^53, ties to even). Valid in the normal
range, which covers every quantity the stats path produces: the table's
CHECK constraint keeps ratings in [1,5], so all averages lie in [1,5] and
all rounded values in [0,5]. -/
def nearestDoubleFracPos (n d : Nat) : Int × Int :=
  let e : Int := floorLog2Frac n d - 52
  let m : Int :=
    if 0 ≤ e then rheDiv (n : Int) ((d : Int) * ((2 ^ e.toNat : Nat) : Int))
    else rheDiv ((n : Int) * ((2 ^ (-e).toNat : Nat) : Int)) (d : Int)
  (m, e)

/-- Python `float()` of the exact fraction n / d (d > 0), extended to all
signs; 0 maps to 0.0. -/
def signedNearestDouble (n : Int) (d : Nat) : Int × Int :=
  if n = 0 then (0, 0)
  else if 0 ≤ n then nearestDoubleFracPos n.toNat d
  else (-(nearestDoubleFracPos (-n).toNat d).1, (nearestDoubleFracPos (-n).toNat d).2)

/-- Python `round(x, 2)` on the double m·2^e (src/app.py line 323): CPython
rounds the double's exact value half-to-even to two decimal digits, then
returns the double nearest that decimal. -/
def pyRoundDouble2 (m e : Int) : Int × Int :=
  let c : Int :=
    if 0 ≤ e then 100 * m * ((2 ^ e.toNat : Nat) : Int)
    else rheDiv (100 * m) ((2 ^ (-e).toNat : Nat) : Int)
  if c = 0 then (0, 0)
  else if 0 ≤ c then nearestDoubleFracPos c.toNat 100
  else (-(nearestDoubleFracPos (-c).toNat 100).1, (nearestDoubleFracPos (-c).toNat 100).2)

/-- Model of `SELECT AVG(rating) FROM reviews` (src/app.py line 297): NULL
on an empty table, else the mean as MySQL's scale-4 DECIMAL — the exact
mean rounded half away from zero to 4 decimal places, carried here as the
integer of ten-thousandths. -/
def sqlAvgScaled (rows : List Review) : Option Int :=
  if rows.isEmpty then none
  else some (mysqlRoundDiv (10000 * ratingSum rows) (rows.length : Int))

/-- The double the handler's average computation produces (src/app.py lines
297-298 and 323): the `or 0` NULL default, then `float()` of the DECIMAL,
then `round(_, 2)`. -/
def avgDouble (rows : List Review) : Int × Int :=
  let a4 := (sqlAvgScaled rows).getD 0
  let x := signedNearestDouble a4 10000
  pyRoundDouble2 x.1 x.2

/-- Exact rational value of the dyadic m·2^e (the number a binary64 double
denotes, and the one its JSON serialization round-trips to). -/
def dyadicQ (m e : Int) : ℚ :=
  if 0 ≤ e then (m : ℚ) * ((2 ^ e.toNat : Nat) : ℚ)
  else (m : ℚ) / ((2 ^ (-e).toNat : Nat) : ℚ)

/-- Round-half-to-even on a rational. Used only on the claim's side, to
state "the arithmetic mean rounded to 2 decimal places"; the program
applies this to the binary double's exact value (`rheDiv` inside
`pyRoundDouble2`), not to the exact mean. -/
def rhe (q : ℚ) : Int :=
  if q - ⌊q⌋ < 1/2 then ⌊q⌋
  else if 1/2 < q - ⌊q⌋ then ⌊q⌋ + 1
  else if ⌊q⌋ % 2 = 0 then ⌊q⌋ else ⌊q⌋ + 1

/-- The claim's "rounded to 2 decimal places" on the exact rational. -/
def round2 (q : ℚ) : ℚ := (rhe (100 * q) : ℚ) / 100

/-- Response body of GET /api/stats (src/app.py lines 321-325). -/
structure Stats where
  total_reviews : Nat
  average_rating : ℚ
  rating_distribution : List (String × Nat)
  deriving DecidableEq, Repr

/-- The GET /api/stats handler `get_stats` (src/app.py lines 285-343) on the
success path: COUNT(*), `round(float(AVG(rating) or 0), 2)` computed
through MySQL's scale-4 DECIMAL and binary64 doubles, and the star-keyed
distribution dict. `average_rating` is the exact value of the resulting
double. Read-only. -/
def get_stats (db : DB) : Stats :=
  { total_reviews := db.rows.length
    average_rating := dyadicQ (avgDouble db.rows).1 (avgDouble db.rows).2
    rating_distribution := ratingDist db.rows }

/-! ### Module top-level execution (for the `db_configM` claim) -/

/-- A top-level Python statement, abstracted to the module-scope names it
reads, the names it binds, and the route it registers (for decorated
handler definitions). -/
structure PyStmt where
  uses : List String
  binds : List String
  route : Option String
  deriving DecidableEq, Repr

/-- Outcome of executing the module body: normal completion or a NameError,
in both cases with the routes registered so far. -/
inductive InitResult where
  | ok (routes : List String)
  | nameError (missing : String) (routes : List String)
  deriving DecidableEq, Repr

/-- Execute top-level statements in order: a statement whose used names are
not all bound raises NameError on the first unbound one; otherwise its
bindings extend the environment and its route (if any) is registered. -/
def execStmts (env routes : List String) : List PyStmt → InitResult
  | [] => .ok routes
  | s :: rest =>
      match s.uses.find? (fun u => !env.contains u) with
      | some u => .nameError u routes
      | none => execStmts (env ++ s.binds) (routes ++ s.route.toList) rest

/-- Builtin names available without a module-level binding (those the
module body actually reads). -/
def pyBuiltins : List String := ["int", "str", "print", "__name__"]

/-- The top-level statements of src/app.py, in source order: the imports
(lines 1-7), `app = Flask(__name__)` (line 9), `CORS(app)` (line 10), the
`db_config` dict (lines 13-20), the pool construction whose `**db_configM`
reads the undefined name (lines 23-28), the two function definitions, the
`init_database()` call (line 76), and the decorated route handlers. -/
def appModuleStmts : List PyStmt :=
  [ ⟨[], ["Flask", "request", "jsonify"], none⟩,
    ⟨[], ["CORS"], none⟩,
    ⟨[], ["datetime"], none⟩,
    ⟨[], ["mysql"], none⟩,
    ⟨[], ["pooling"], none⟩,
    ⟨[], ["os"], none⟩,
    ⟨[], ["traceback"], none⟩,
    ⟨["Flask", "__name__"], ["app"], none⟩,
    ⟨["CORS", "app"], [], none⟩,
    ⟨["os", "int"], ["db_config"], none⟩,
    ⟨["pooling", "db_configM"], ["connection_pool"], none⟩,
    ⟨[], ["get_connection"], none⟩,
    ⟨[], ["init_database"], none⟩,
    ⟨["init_database"], [], none⟩,
    ⟨["app"], ["home"], some "GET /"⟩,
    ⟨["app"], ["add_review"], some "POST /api/reviews"⟩,
    ⟨["app"], ["get_reviews"], some "GET /api/reviews"⟩,
    ⟨["app"], ["delete_review"], some "DELETE /api/reviews/<int:review_id>"⟩,
    ⟨["app"], ["get_stats"], some "GET /api/stats"⟩,
    ⟨["app"], ["health_check"], some "GET /api/health"⟩,
    ⟨["app"], ["test_connection"], some "GET /api/test-connection"⟩,
    ⟨["app"], ["raw_connection_test"], some "GET /api/raw-connection-test"⟩ ]

/-- Import the module: run its top-level statements. -/
def runAppModule : InitResult := execStmts pyBuiltins [] appModuleStmts

/-! ### Sequences of write operations (for the id-monotonicity claim) -/

/-- A write operation against the service: a POST /api/reviews submission
or a DELETE /api/reviews/{id}. -/
inductive Op where
  | add (now : Nat) (fp : FailPoint) (data : ReqData)
  | del (fp : FailPoint) (rid : Nat)
  deriving Repr

/-- Apply one operation, returning the id when it is a successful append. -/
def applyOp : Op → DB → Option Nat × DB
  | .add now fp data, db =>
      match add_review now fp data db with
      | (.created i, db2) => (some i, db2)
      | (_, db2) => (none, db2)
  | .del fp rid, db => (none, (delete_review fp rid db).2)

/-- Run a sequence of operations, collecting the ids returned by the
successful appends in order. -/
def runOps : List Op → DB → List Nat × DB
  | [], db => ([], db)
  | op :: rest, db =>
      let r := applyOp op db
      let rr := runOps rest r.2
      (r.1.toList ++ rr.1, rr.2)

/-! ### Sample data used by witnesses and counterexamples -/

/-- An empty table whose `AUTO_INCREMENT` counter starts at 1. -/
def db0 : DB := ⟨[], 1⟩

/-- A fully valid submission. -/
def dataOK : ReqData :=
  [("name", .JStr " Ann "), ("email", .JStr "a@b.c"), ("phone", .JStr "123"),
   ("rating", .JStr "4"), ("review", .JStr " nice ")]

/-- A submission whose rating is the non-numeric string "abc". -/
def dataAbc : ReqData :=
  [("name", .JStr "Ann"), ("email", .JStr "a@b.c"), ("phone", .JStr "123"),
   ("rating", .JStr "abc"), ("review", .JStr "ok")]

/-- A submission whose rating is the out-of-range integer 6. -/
def dataSix : ReqData :=
  [("name", .JStr "Ann"), ("email", .JStr "a@b.c"), ("phone", .JStr "123"),
   ("rating", .JInt 6), ("review", .JStr "ok")]

/-- A submission whose rating is JSON `null` and whose other required
fields are all present and nonempty. -/
def dataRatingNull : ReqData :=
  [("name", .JStr "Ann"), ("email", .JStr "a@b.c"), ("phone", .JStr "123"),
   ("rating", .JNull), ("review", .JStr "ok")]

/-- A table holding five reviews with ratings [5, 5, 4, 3, 1] (the
specification's stats scenario), with distinct ids and timestamps. -/
def scenDB : DB :=
  ⟨[⟨1, "a", "a@x", "1", .JStr "F", 5, "t1", 1⟩,
    ⟨2, "b", "b@x", "2", .JStr "M", 5, "t2", 2⟩,
    ⟨3, "c", "c@x", "3", .JStr "F", 4, "t3", 3⟩,
    ⟨4, "d", "d@x", "4", .JStr "M", 3, "t4", 4⟩,
    ⟨5, "e", "e@x", "5", .JStr "F", 1, "t5", 5⟩], 6⟩

/-! ### Helper lemmas -/

/-- A failed validation yields a 400 or a 500 response, never `created`. -/
theorem validateAdd_error_status (data : ReqData) (r : AddResult)
    (h : validateAdd data = .error r) : r.status = 400 ∨ r.status = 500 := by
  unfold validateAdd at h
  split at h
  · cases h; exact Or.inl rfl
  · split at h
    · cases h; exact Or.inl rfl
    · cases h; exact Or.inr rfl
    · split at h
      · cases h; exact Or.inl rfl
      · cases h

/-- A successful validation means: no missing field, `int(data['rating'])`
returned exactly this rating, and it is in range. -/
theorem validateAdd_ok (data : ReqData) (rating : Int)
    (h : validateAdd data = .ok rating) :
    firstMissing data = none ∧ pyIntField data "rating" = .ok rating ∧
      1 ≤ rating ∧ rating ≤ 5 := by
  unfold validateAdd at h
  split at h
  · cases h
  · rename_i heq1
    split at h
    · cases h
    · cases h
    · rename_i r0 heq2
      split at h
      · cases h
      · rename_i h3
        cases h
        push_neg at h3
        exact ⟨heq1, heq2, h3.1, h3.2⟩

/-! ### C3: module initialization raises NameError on `db_configM` -/

/-- C3: executing the module's top-level statements raises a NameError on
`db_configM` (the name read by the connection-pool construction at
src/app.py line 27) with no route yet registered, and `db_configM` is bound
by no statement of the module and is no builtin: no endpoint of the service
is ever reachable. -/
theorem module_init_raises_nameError :
    runAppModule = .nameError "db_configM" [] ∧
    "db_configM" ∉ pyBuiltins ∧
    ∀ s ∈ appModuleStmts, "db_configM" ∉ s.binds := by
  refine ⟨by decide, by decide, ?_⟩
  decide

/-! ### C6: out-of-range limit is rejected with 400 -/

/-- C6: for every integer limit outside [1, 100], GET /api/reviews answers
400 "Limit must be between 1 and 100" — for every table state and every
failure point, since the check precedes any database access — rather than
clamping the limit, and returns no records. -/
theorem get_reviews_rejects_bad_limit (fp : FailPoint) (limit : Int) (db : DB)
    (h : limit < 1 ∨ 100 < limit) :
    get_reviews fp limit db = .badRequest "Limit must be between 1 and 100" ∧
    ∀ l, get_reviews fp limit db ≠ .ok l := by
  unfold get_reviews
  rw [if_pos h]
  exact ⟨rfl, fun l hl => by cases hl⟩

/-- Witness for C6 at the concrete limit 101. -/
theorem get_reviews_rejects_bad_limit_witness :
    ((101 : Int) < 1 ∨ (100 : Int) < 101) ∧
    (get_reviews .noFail 101 scenDB = .badRequest "Limit must be between 1 and 100" ∧
     ∀ l, get_reviews .noFail 101 scenDB ≠ .ok l) :=
  ⟨by decide, get_reviews_rejects_bad_limit .noFail 101 scenDB (by decide)⟩

/-! ### C9: write operations are atomic under medium failure -/

/-- C9: a medium failure at any point of a write (connection acquisition,
statement execution, or commit) leaves the committed record set exactly as
it was: the append publishes no row (even at a failed commit, where only
the `AUTO_INCREMENT` counter has advanced) and never reports `created`,
and the delete leaves the whole state untouched and reports a 500. -/
theorem write_failure_is_rolled_back (fp : FailPoint) (hfp : fp ≠ .noFail)
    (now : Nat) (data : ReqData) (db : DB) (rid : Nat) :
    (add_review now fp data db).2.rows = db.rows ∧
    (∀ i, (add_review now fp data db).1 ≠ .created i) ∧
    (delete_review fp rid db).2 = db ∧
    (delete_review fp rid db).1.status = 500 := by
  have hadd : (add_review now fp data db).2.rows = db.rows ∧
      ∀ i, (add_review now fp data db).1 ≠ .created i := by
    cases h1 : validateAdd data with
    | error resp =>
        simp only [add_review, h1]
        refine ⟨trivial, fun i hi => ?_⟩
        have := validateAdd_error_status data resp h1
        rw [hi] at this
        cases this with
        | inl h => cases h
        | inr h => cases h
    | ok rating =>
        cases fp with
        | noFail => exact absurd rfl hfp
        | atGetConn =>
            simp only [add_review, h1]
            exact ⟨trivial, fun i hi => by cases hi⟩
        | atExecute =>
            simp only [add_review, h1]
            cases h2 : buildRow now db.nextId data rating with
            | none => exact ⟨rfl, fun i hi => by cases hi⟩
            | some row => exact ⟨rfl, fun i hi => by cases hi⟩
        | atCommit =>
            simp only [add_review, h1]
            cases h2 : buildRow now db.nextId data rating with
            | none => exact ⟨rfl, fun i hi => by cases hi⟩
            | some row => exact ⟨rfl, fun i hi => by cases hi⟩
  have hdel : (delete_review fp rid db).2 = db ∧
      (delete_review fp rid db).1.status = 500 := by
    cases fp with
    | noFail => exact absurd rfl hfp
    | atGetConn => exact ⟨rfl, rfl⟩
    | atExecute => exact ⟨rfl, rfl⟩
    | atCommit => exact ⟨rfl, rfl⟩
  exact ⟨hadd.1, hadd.2, hdel.1, hdel.2⟩

/-- Witness for C9: a failure at the commit of a valid submission, and of a
delete of an existing id, leaves the scenario table unchanged. -/
theorem write_failure_is_rolled_back_witness :
    (FailPoint.atCommit ≠ FailPoint.noFail) ∧
    ((add_review 9 .atCommit dataOK scenDB).2.rows = scenDB.rows ∧
     (∀ i, (add_review 9 .atCommit dataOK scenDB).1 ≠ .created i) ∧
     (delete_review .atCommit 3 scenDB).2 = scenDB ∧
     (delete_review .atCommit 3 scenDB).1.status = 500) :=
  ⟨by decide, write_failure_is_rolled_back .atCommit (by decide) 9 dataOK scenDB 3⟩

/-! ### C2: the first missing/empty required field is named in a 400 -/

/-- Spec-side reading of a missing field: the field is absent from the
submission, or its value is a string that is empty after trimming
whitespace. -/
def specMissing (data : ReqData) (f : String) : Prop :=
  lookupField data f = none ∨
    ∃ s, lookupField data f = some (.JStr s) ∧ pyStrip s = ""

/-- The handler's per-field check fails exactly on the spec-side missing
fields. -/
theorem present_eq_false_iff (data : ReqData) (f : String) :
    present data f = false ↔ specMissing data f := by
  unfold present specMissing
  cases h : lookupField data f with
  | none => simp
  | some v =>
      cases v with
      | JStr s => simp [strTruthy]
      | JInt n => simp [strTruthy]
      | JNull => simp [strTruthy]

/-- Spec-side reading of "the first missing/empty field, in the order name,
email, phone, rating, review": `f` occurs in the required list with no
missing field before it. -/
def specFirstMissing (data : ReqData) (f : String) : Prop :=
  ∃ pre post, requiredFields = pre ++ f :: post ∧ specMissing data f ∧
    ∀ g ∈ pre, ¬ specMissing data g

/-- Searching an appended list whose prefix all fails the check returns the
head of the suffix when it passes. -/
theorem find?_append_first {α : Type} (q : α → Bool) (pre : List α) (f : α)
    (post : List α) (hpre : ∀ g ∈ pre, q g = false) (hf : q f = true) :
    (pre ++ f :: post).find? q = some f := by
  induction pre with
  | nil => simp [List.find?_cons, hf]
  | cons a pre ih =>
      have ha := hpre a (by simp)
      rw [List.cons_append, List.find?_cons_of_neg _ (by simp [ha])]
      exact ih (fun g hg => hpre g (by simp [hg]))

/-- C2: when some required field is absent or empty after trimming, POST
/api/reviews answers 400 with a message naming the first such field in the
order name, email, phone, rating, review, and the record set is untouched
(the check precedes any database access, so this holds at every failure
point). -/
theorem add_review_names_first_missing_field (now : Nat) (fp : FailPoint)
    (data : ReqData) (db : DB) (f : String) (h : specFirstMissing data f) :
    add_review now fp data db
      = (.badRequest ("Missing or empty field: " ++ f), db) := by
  obtain ⟨pre, post, hsplit, hf, hpre⟩ := h
  have hfm : firstMissing data = some f := by
    unfold firstMissing
    rw [hsplit]
    apply find?_append_first
    · intro g hg
      have hng := hpre g hg
      rw [← present_eq_false_iff] at hng
      simp only [Bool.not_eq_false] at hng
      simp [hng]
    · have hpf := (present_eq_false_iff data f).mpr hf
      simp [hpf]
  have hva : validateAdd data
      = .error (.badRequest ("Missing or empty field: " ++ f)) := by
    simp only [validateAdd, hfm]
  simp only [add_review, hva]

/-- A submission whose phone is whitespace only; name and email are fine. -/
def dataNoPhone : ReqData :=
  [("name", .JStr "Ann"), ("email", .JStr "a@b.c"), ("phone", .JStr "   "),
   ("rating", .JStr "4"), ("review", .JStr "ok")]

/-- Witness for C2: the whitespace-only phone is the first missing field
and is the one named in the 400 response. -/
theorem add_review_names_first_missing_field_witness :
    specFirstMissing dataNoPhone "phone" ∧
    add_review 0 .noFail dataNoPhone db0
      = (.badRequest ("Missing or empty field: " ++ "phone"), db0) := by
  have hs : specFirstMissing dataNoPhone "phone" := by
    refine ⟨["name", "email"], ["rating", "review"], rfl,
      (present_eq_false_iff dataNoPhone "phone").mp (by decide), ?_⟩
    intro g hg hsm
    have hp := (present_eq_false_iff dataNoPhone g).mpr hsm
    fin_cases hg
    · exact absurd hp (by decide)
    · exact absurd hp (by decide)
  exact ⟨hs, add_review_names_first_missing_field 0 .noFail dataNoPhone db0 "phone" hs⟩

/-! ### C4: delete removes exactly the addressed record, else 404 -/

/-- A delete that matches nothing answers 404 and leaves the state
untouched. -/
theorem delete_review_no_match (rid : Nat) (db : DB)
    (h : ∀ r ∈ db.rows, r.id ≠ rid) :
    (delete_review .noFail rid db).1 = .notFound ∧
    (delete_review .noFail rid db).2 = db := by
  have hfil : db.rows.filter (fun r => !(r.id = rid)) = db.rows :=
    List.filter_eq_self.mpr (fun a ha => by simp [h a ha])
  simp [delete_review, hfil]

/-- With distinct ids, deleting a present id counts exactly one row. -/
theorem filter_ne_id_length (rid : Nat) :
    ∀ l : List Review, (l.map Review.id).Nodup → (∃ r ∈ l, r.id = rid) →
      (l.filter (fun r => !(r.id = rid))).length + 1 = l.length := by
  intro l
  induction l with
  | nil => rintro _ ⟨r, hr, _⟩; cases hr
  | cons a l ih =>
      intro hnd hex
      rw [List.map_cons, List.nodup_cons] at hnd
      by_cases ha : a.id = rid
      · have hnone : ∀ r ∈ l, r.id ≠ rid := by
          intro r hr hrid
          apply hnd.1
          rw [ha, ← hrid]
          exact List.mem_map_of_mem Review.id hr
        have hfil : l.filter (fun r => !(r.id = rid)) = l :=
          List.filter_eq_self.mpr (fun r hr => by simp [hnone r hr])
        simp [List.filter_cons, ha, hfil]
      · have hex2 : ∃ r ∈ l, r.id = rid := by
          obtain ⟨r, hr, hrid⟩ := hex
          cases List.mem_cons.mp hr with
          | inl he => exact absurd (he ▸ hrid) ha
          | inr hm => exact ⟨r, hm, hrid⟩
        have := ih hnd.2 hex2
        simp [List.filter_cons, ha]
        omega

/-- C4: DELETE /api/reviews/{id} on a table with distinct ids removes the
record with the given id exactly when one exists, answering 200; every
other record survives and no surviving record has the id; an immediate
second delete of the same id, and any delete of an absent id, answers 404
and leaves the record set unchanged. -/
theorem delete_review_found_or_404 (rid : Nat) (db : DB)
    (hnodup : (db.rows.map Review.id).Nodup) :
    ((∃ r ∈ db.rows, r.id = rid) →
       (delete_review .noFail rid db).1 = .deleted ∧
       (delete_review .noFail rid db).1.status = 200 ∧
       (delete_review .noFail rid db).2.rows
         = db.rows.filter (fun r => !(r.id = rid)) ∧
       (delete_review .noFail rid db).2.rows.length + 1 = db.rows.length ∧
       (∀ r ∈ db.rows, r.id ≠ rid → r ∈ (delete_review .noFail rid db).2.rows) ∧
       (∀ r ∈ (delete_review .noFail rid db).2.rows, r.id ≠ rid) ∧
       (delete_review .noFail rid (delete_review .noFail rid db).2).1 = .notFound) ∧
    ((∀ r ∈ db.rows, r.id ≠ rid) →
       (delete_review .noFail rid db).1 = .notFound ∧
       (delete_review .noFail rid db).1.status = 404 ∧
       (delete_review .noFail rid db).2 = db) := by
  constructor
  · intro hex
    have hlt : (db.rows.filter (fun r => !(r.id = rid))).length < db.rows.length := by
      apply List.length_filter_lt_length_iff_exists.mpr
      obtain ⟨r, hr, hid⟩ := hex
      exact ⟨r, hr, by simp [hid]⟩
    have hne : db.rows.length
        - (db.rows.filter (fun r => !(r.id = rid))).length ≠ 0 :=
      Nat.sub_ne_zero_of_lt hlt
    have hd : delete_review .noFail rid db
        = (.deleted, ⟨db.rows.filter (fun r => !(r.id = rid)), db.nextId⟩) := by
      simp only [delete_review]
      rw [if_neg hne]
    have hnot : ∀ r ∈ db.rows.filter (fun r => !(r.id = rid)), r.id ≠ rid := by
      intro r hr
      have := (List.mem_filter.mp hr).2
      simpa using this
    refine ⟨by rw [hd], by rw [hd]; rfl, by rw [hd],
      by rw [hd]; exact filter_ne_id_length rid db.rows hnodup hex, ?_, ?_, ?_⟩
    · intro r hr hrid
      rw [hd]
      exact List.mem_filter.mpr ⟨hr, by simp [hrid]⟩
    · rw [hd]; exact hnot
    · rw [hd]
      exact (delete_review_no_match rid _ hnot).1
  · intro habs
    have := delete_review_no_match rid db habs
    exact ⟨this.1, by rw [this.1]; rfl, this.2⟩

/-- Witness for C4 at the scenario table and id 3. -/
theorem delete_review_found_or_404_witness :
    (scenDB.rows.map Review.id).Nodup ∧
    (((∃ r ∈ scenDB.rows, r.id = 3) →
        (delete_review .noFail 3 scenDB).1 = .deleted ∧
        (delete_review .noFail 3 scenDB).1.status = 200 ∧
        (delete_review .noFail 3 scenDB).2.rows
          = scenDB.rows.filter (fun r => !(r.id = 3)) ∧
        (delete_review .noFail 3 scenDB).2.rows.length + 1 = scenDB.rows.length ∧
        (∀ r ∈ scenDB.rows, r.id ≠ 3 → r ∈ (delete_review .noFail 3 scenDB).2.rows) ∧
        (∀ r ∈ (delete_review .noFail 3 scenDB).2.rows, r.id ≠ 3) ∧
        (delete_review .noFail 3 (delete_review .noFail 3 scenDB).2).1 = .notFound) ∧
     ((∀ r ∈ scenDB.rows, r.id ≠ 3) →
        (delete_review .noFail 3 scenDB).1 = .notFound ∧
        (delete_review .noFail 3 scenDB).1.status = 404 ∧
        (delete_review .noFail 3 scenDB).2 = scenDB)) :=
  ⟨by decide, delete_review_found_or_404 3 scenDB (by decide)⟩

/-! ### C5: GET /api/reviews honours the limit and the descending order -/

/-- C5: for every limit N in [1, 100], GET /api/reviews returns a list of at
most N records in which every record's `created_at` is greater than or
equal to that of every later record (descending order). -/
theorem get_reviews_limit_and_order (N : Int) (db : DB)
    (h1 : 1 ≤ N) (h2 : N ≤ 100) :
    ∃ l, get_reviews .noFail N db = .ok l ∧
      l.length ≤ N.toNat ∧
      List.Pairwise (fun a b => b.created_at ≤ a.created_at) l := by
  have hcond : ¬(N < 1 ∨ 100 < N) := by omega
  refine ⟨(List.insertionSort createdGE db.rows).take N.toNat, ?_, ?_, ?_⟩
  · simp only [get_reviews]
    rw [if_neg hcond]
  · rw [List.length_take]
    exact Nat.min_le_left _ _
  · exact List.Pairwise.sublist (List.take_sublist _ _)
      (List.sorted_insertionSort createdGE db.rows)

/-- Witness for C5 at limit 3 on the scenario table. -/
theorem get_reviews_limit_and_order_witness :
    (1 : Int) ≤ 3 ∧ (3 : Int) ≤ 100 ∧
    (∃ l, get_reviews .noFail 3 scenDB = .ok l ∧
      l.length ≤ (3 : Int).toNat ∧
      List.Pairwise (fun a b => b.created_at ≤ a.created_at) l) :=
  ⟨by decide, by decide, get_reviews_limit_and_order 3 scenDB (by decide) (by decide)⟩

/-! ### C8: successful appends return strictly increasing ids -/

/-- A handler run that fails validation hands back its error and the
untouched state. -/
theorem add_review_error (now : Nat) (fp : FailPoint) (data : ReqData)
    (db : DB) (r : AddResult) (h : validateAdd data = .error r) :
    add_review now fp data db = (r, db) := by
  simp only [add_review, h]

/-- A `created` response carries the table's `AUTO_INCREMENT` value, which
the insert then advances by one. -/
theorem add_review_created_inv (now : Nat) (fp : FailPoint) (data : ReqData)
    (db : DB) (i : Nat) (h : (add_review now fp data db).1 = .created i) :
    i = db.nextId ∧ (add_review now fp data db).2.nextId = db.nextId + 1 := by
  cases h1 : validateAdd data with
  | error resp =>
      rw [add_review_error now fp data db resp h1] at h
      have h' : resp = .created i := h
      have := validateAdd_error_status data resp h1
      rw [h'] at this
      rcases this with h2 | h2 <;> simp [AddResult.status] at h2
  | ok rating =>
      cases fp with
      | noFail =>
          cases h2 : buildRow now db.nextId data rating with
          | none => simp only [add_review, h1, h2] at h; cases h
          | some row =>
              simp only [add_review, h1, h2] at h ⊢
              injection h with h3
              exact ⟨h3.symm, trivial⟩
      | atGetConn => simp only [add_review, h1] at h; cases h
      | atExecute =>
          cases h2 : buildRow now db.nextId data rating with
          | none => simp only [add_review, h1, h2] at h; cases h
          | some row => simp only [add_review, h1, h2] at h; cases h
      | atCommit =>
          cases h2 : buildRow now db.nextId data rating with
          | none => simp only [add_review, h1, h2] at h; cases h
          | some row => simp only [add_review, h1, h2] at h; cases h

/-- The `AUTO_INCREMENT` counter never decreases across an append attempt. -/
theorem add_review_nextId_mono (now : Nat) (fp : FailPoint) (data : ReqData)
    (db : DB) : db.nextId ≤ (add_review now fp data db).2.nextId := by
  cases h1 : validateAdd data with
  | error resp => rw [add_review_error now fp data db resp h1]
  | ok rating =>
      cases fp with
      | noFail =>
          cases h2 : buildRow now db.nextId data rating with
          | none => simp only [add_review, h1, h2]; exact Nat.le_refl _
          | some row => simp only [add_review, h1, h2]; exact Nat.le_succ _
      | atGetConn => simp only [add_review, h1]; exact Nat.le_refl _
      | atExecute =>
          cases h2 : buildRow now db.nextId data rating with
          | none => simp only [add_review, h1, h2]; exact Nat.le_refl _
          | some row => simp only [add_review, h1, h2]; exact Nat.le_refl _
      | atCommit =>
          cases h2 : buildRow now db.nextId data rating with
          | none => simp only [add_review, h1, h2]; exact Nat.le_refl _
          | some row => simp only [add_review, h1, h2]; exact Nat.le_succ _

/-- DELETE never touches the `AUTO_INCREMENT` counter. -/
theorem delete_review_nextId (fp : FailPoint) (rid : Nat) (db : DB) :
    (delete_review fp rid db).2.nextId = db.nextId := by
  cases fp with
  | noFail => simp only [delete_review]; split <;> rfl
  | atGetConn => rfl
  | atExecute => rfl
  | atCommit => rfl

/-- The state reached by an `add` operation is the handler's state. -/
theorem applyOp_add_snd (now : Nat) (fp : FailPoint) (data : ReqData)
    (db : DB) : (applyOp (.add now fp data) db).2 = (add_review now fp data db).2 := by
  simp only [applyOp]
  cases h : add_review now fp data db with
  | mk res db2 => cases res <;> rfl

/-- Any single operation leaves the `AUTO_INCREMENT` counter at least where
it was. -/
theorem applyOp_nextId_mono (op : Op) (db : DB) :
    db.nextId ≤ (applyOp op db).2.nextId := by
  cases op with
  | add now fp data =>
      rw [applyOp_add_snd]
      exact add_review_nextId_mono now fp data db
  | del fp rid =>
      show db.nextId ≤ (delete_review fp rid db).2.nextId
      rw [delete_review_nextId]

/-- An operation that yields an id is a successful append: it returns the
current counter and advances it. -/
theorem applyOp_some (op : Op) (db : DB) (i : Nat)
    (h : (applyOp op db).1 = some i) :
    i = db.nextId ∧ (applyOp op db).2.nextId = db.nextId + 1 := by
  cases op with
  | del fp rid => cases h
  | add now fp data =>
      revert h
      simp only [applyOp, applyOp_add_snd]
      cases hh : add_review now fp data db with
      | mk res db2 =>
          cases res with
          | created j =>
              intro h
              injection h with h2
              have hc : (add_review now fp data db).1 = .created j := by rw [hh]
              have hinv := add_review_created_inv now fp data db j hc
              rw [hh] at hinv
              exact ⟨h2 ▸ hinv.1, hinv.2⟩
          | badRequest m => intro h; cases h
          | serverError m => intro h; cases h

/-- Ids collected over any operation sequence are bounded below by the
current counter and strictly increase. -/
theorem runOps_ids (ops : List Op) : ∀ db : DB,
    (∀ i ∈ (runOps ops db).1, db.nextId ≤ i) ∧
    List.Pairwise (· < ·) (runOps ops db).1 := by
  induction ops with
  | nil => exact fun db => ⟨(fun i hi => nomatch hi), List.Pairwise.nil⟩
  | cons op ops ih =>
      intro db
      have hmono := applyOp_nextId_mono op db
      obtain ⟨ihb, ihp⟩ := ih (applyOp op db).2
      constructor
      · intro i hi
        simp only [runOps] at hi
        rw [List.mem_append] at hi
        cases hi with
        | inl h =>
            cases ho : (applyOp op db).1 with
            | none => rw [ho] at h; cases h
            | some j =>
                rw [ho] at h
                simp only [Option.toList, List.mem_singleton] at h
                subst h
                have := applyOp_some op db i (by rw [ho])
                rw [this.1]
        | inr h => exact Nat.le_trans hmono (ihb i h)
      · simp only [runOps]
        cases ho : (applyOp op db).1 with
        | none => simpa using ihp
        | some j =>
            have hj := applyOp_some op db j (by rw [ho])
            simp only [Option.toList, List.singleton_append]
            refine List.Pairwise.cons ?_ ihp
            intro k hk
            have hk2 := ihb k hk
            omega

/-- C8: over every sequence of operations against every starting state, the
ids returned by the successful appends are pairwise strictly increasing in
order of occurrence — each is strictly greater than every id returned by a
prior successful append, so no id is ever reused. -/
theorem append_ids_strictly_increase (ops : List Op) (db : DB) :
    List.Pairwise (· < ·) (runOps ops db).1 :=
  (runOps_ids ops db).2

/-! ### C1: rating validation (corrected) -/

/-- Counterexample to C1 as stated: a submission whose rating is JSON
`null` (a non-numeric rating value) passes the required-field loop —
`str(None).strip()` is the truthy "None" — and then `int(None)` raises a
`TypeError`, which the handler's `except ValueError` does not catch, so the
generic handler answers 500, not the claimed 400 (the record set is still
untouched). -/
theorem rating_null_yields_500_not_400 :
    (add_review 0 .noFail dataRatingNull db0).1.status = 500 ∧
    ¬((add_review 0 .noFail dataRatingNull db0).1.status = 400) ∧
    (add_review 0 .noFail dataRatingNull db0).2 = db0 := by
  refine ⟨?_, ?_, ?_⟩ <;> decide

/-- C1 amended: a rating that is a string `int()` cannot parse draws a 400
with no mutation, and an integer rating outside [1, 5] draws a 400 with no
mutation — but a rating of JSON `null` in an otherwise complete submission
raises `TypeError`, which only the generic `except Exception` catches, so
it draws a 500 (still with no mutation); all of this at every failure
point, since validation precedes any database access. -/
theorem add_review_rating_validation (now : Nat) (fp : FailPoint)
    (data : ReqData) (db : DB) :
    (∀ s, lookupField data "rating" = some (.JStr s) → pyIntOfStr s = none →
       (add_review now fp data db).1.status = 400 ∧
       (add_review now fp data db).2 = db) ∧
    (∀ k : Int, pyIntField data "rating" = .ok k → (k < 1 ∨ 5 < k) →
       (add_review now fp data db).1.status = 400 ∧
       (add_review now fp data db).2 = db) ∧
    (firstMissing data = none → lookupField data "rating" = some .JNull →
       (add_review now fp data db).1.status = 500 ∧
       (add_review now fp data db).2 = db) := by
  refine ⟨?_, ?_, ?_⟩
  · intro s hs hparse
    have hpf : pyIntField data "rating" = .valueError := by
      simp only [pyIntField, hs, hparse]
    cases hfm : firstMissing data with
    | some f =>
        have hva : validateAdd data
            = .error (.badRequest ("Missing or empty field: " ++ f)) := by
          simp only [validateAdd, hfm]
        rw [add_review_error now fp data db _ hva]
        exact ⟨rfl, rfl⟩
    | none =>
        have hva : validateAdd data = .error (.badRequest "Invalid rating value") := by
          simp only [validateAdd, hfm, hpf]
        rw [add_review_error now fp data db _ hva]
        exact ⟨rfl, rfl⟩
  · intro k hk hrange
    cases hfm : firstMissing data with
    | some f =>
        have hva : validateAdd data
            = .error (.badRequest ("Missing or empty field: " ++ f)) := by
          simp only [validateAdd, hfm]
        rw [add_review_error now fp data db _ hva]
        exact ⟨rfl, rfl⟩
    | none =>
        have hva : validateAdd data
            = .error (.badRequest "Rating must be between 1 and 5") := by
          simp only [validateAdd, hfm, hk]
          rw [if_pos hrange]
        rw [add_review_error now fp data db _ hva]
        exact ⟨rfl, rfl⟩
  · intro hfm hnull
    have hpf : pyIntField data "rating" = .otherExc := by
      simp only [pyIntField, hnull]
    have hva : validateAdd data
        = .error (.serverError "int() argument is not a string or a number") := by
      simp only [validateAdd, hfm, hpf]
    rw [add_review_error now fp data db _ hva]
    exact ⟨rfl, rfl⟩

/-- Witness for the amended C1: rating "abc" draws a 400, rating 6 draws a
400, rating `null` draws a 500, all without mutating the empty table. -/
theorem add_review_rating_validation_witness :
    (pyIntOfStr "abc" = none ∧
     (add_review 0 .noFail dataAbc db0).1.status = 400 ∧
     (add_review 0 .noFail dataAbc db0).2 = db0) ∧
    (pyIntField dataSix "rating" = .ok 6 ∧
     (add_review 0 .noFail dataSix db0).1.status = 400 ∧
     (add_review 0 .noFail dataSix db0).2 = db0) ∧
    (firstMissing dataRatingNull = none ∧
     (add_review 0 .noFail dataRatingNull db0).1.status = 500 ∧
     (add_review 0 .noFail dataRatingNull db0).2 = db0) := by
  have h1 := (add_review_rating_validation 0 .noFail dataAbc db0).1 "abc"
    (by decide) (by decide)
  have h2 := (add_review_rating_validation 0 .noFail dataSix db0).2.1 6
    (by decide) (by decide)
  have h3 := (add_review_rating_validation 0 .noFail dataRatingNull db0).2.2
    (by decide) (by decide)
  exact ⟨⟨by decide, h1.1, h1.2⟩, ⟨by decide, h2.1, h2.2⟩, ⟨by decide, h3.1, h3.2⟩⟩

/-! ### C10: what a successful append persists -/

/-- C10: a successful POST /api/reviews appends exactly one row holding the
whitespace-stripped name, email, phone and review strings, the parsed
in-range rating, the Store-assigned id and timestamp — and the gender value
exactly as submitted, without stripping or validation, whenever the gender
key is present (even as an empty or whitespace string, or a non-string);
the "Not specified" default applies only when the key is absent. -/
theorem add_review_success_row (now : Nat) (data : ReqData) (db : DB)
    (i : Nat) (db2 : DB)
    (h : add_review now .noFail data db = (.created i, db2)) :
    i = db.nextId ∧ db2.nextId = db.nextId + 1 ∧
    ∃ n e p rv rating row,
      lookupField data "name" = some (.JStr n) ∧
      lookupField data "email" = some (.JStr e) ∧
      lookupField data "phone" = some (.JStr p) ∧
      lookupField data "review" = some (.JStr rv) ∧
      pyIntField data "rating" = .ok rating ∧ 1 ≤ rating ∧ rating ≤ 5 ∧
      db2.rows = db.rows ++ [row] ∧
      row.id = db.nextId ∧ row.created_at = now ∧
      row.name = pyStrip n ∧ row.email = pyStrip e ∧
      row.phone = pyStrip p ∧ row.review = pyStrip rv ∧
      row.rating = rating ∧
      (∀ g, lookupField data "gender" = some g → row.gender = g) ∧
      (lookupField data "gender" = none → row.gender = .JStr "Not specified") := by
  cases h1 : validateAdd data with
  | error resp =>
      rw [add_review_error now .noFail data db resp h1] at h
      rw [Prod.mk.injEq] at h
      have := validateAdd_error_status data resp h1
      rw [h.1] at this
      rcases this with h2 | h2 <;> simp [AddResult.status] at h2
  | ok rating =>
      have hva := validateAdd_ok data rating h1
      cases h2 : buildRow now db.nextId data rating with
      | none =>
          simp only [add_review, h1, h2, Prod.mk.injEq] at h
          cases h.1
      | some row =>
          simp only [add_review, h1, h2, Prod.mk.injEq] at h
          obtain ⟨hcre, hdb2⟩ := h
          injection hcre with hi
          unfold buildRow at h2
          split at h2
          · rename_i n e p rv hn he hp hrv
            injection h2 with hrow
            subst hrow
            refine ⟨hi.symm, by rw [← hdb2], n, e, p, rv, rating, _,
              hn, he, hp, hrv, hva.2.1, hva.2.2.1, hva.2.2.2, by rw [← hdb2],
              rfl, rfl, rfl, rfl, rfl, rfl, rfl, ?_, ?_⟩
            · intro g hg; simp [hg]
            · intro hg; simp [hg]
          · cases h2

/-- A valid submission that also carries a whitespace-only gender. -/
def dataGenderWS : ReqData :=
  [("name", .JStr " Ann "), ("email", .JStr "a@b.c"), ("phone", .JStr "123"),
   ("rating", .JStr "4"), ("review", .JStr " nice "), ("gender", .JStr "  ")]

/-- Witness for C10: the persisted row trims name and review but stores the
whitespace-only gender verbatim. -/
theorem add_review_success_row_witness :
    (add_review 7 .noFail dataGenderWS db0
      = (.created 1,
         ⟨[{ id := 1, name := "Ann", email := "a@b.c", phone := "123",
             gender := .JStr "  ", rating := 4, review := "nice",
             created_at := 7 }], 2⟩)) ∧
    ((1 : Nat) = db0.nextId ∧
     (⟨[{ id := 1, name := "Ann", email := "a@b.c", phone := "123",
          gender := .JStr "  ", rating := 4, review := "nice",
          created_at := 7 }], 2⟩ : DB).nextId = db0.nextId + 1 ∧
     ∃ n e p rv rating row,
       lookupField dataGenderWS "name" = some (.JStr n) ∧
       lookupField dataGenderWS "email" = some (.JStr e) ∧
       lookupField dataGenderWS "phone" = some (.JStr p) ∧
       lookupField dataGenderWS "review" = some (.JStr rv) ∧
       pyIntField dataGenderWS "rating" = .ok rating ∧ 1 ≤ rating ∧ rating ≤ 5 ∧
       (⟨[{ id := 1, name := "Ann", email := "a@b.c", phone := "123",
            gender := .JStr "  ", rating := 4, review := "nice",
            created_at := 7 }], 2⟩ : DB).rows = db0.rows ++ [row] ∧
       row.id = db0.nextId ∧ row.created_at = 7 ∧
       row.name = pyStrip n ∧ row.email = pyStrip e ∧
       row.phone = pyStrip p ∧ row.review = pyStrip rv ∧
       row.rating = rating ∧
       (∀ g, lookupField dataGenderWS "gender" = some g → row.gender = g) ∧
       (lookupField dataGenderWS "gender" = none →
          row.gender = .JStr "Not specified")) :=
  ⟨by decide, add_review_success_row 7 dataGenderWS db0 1 _ (by decide)⟩

/-! ### C7: GET /api/stats computes count, mean and histogram -/

/-- Value of a double with the exponent −51 the averages here produce. -/
theorem dyadicQ_m51 (m : Int) : dyadicQ m (-51) = (m : ℚ) / 2251799813685248 := by
  unfold dyadicQ
  rw [if_neg (by decide : ¬(0 : ℤ) ≤ -51)]
  rw [show ((-(-51 : ℤ)).toNat) = 51 from rfl]
  norm_num

/-- The exact mean 107/40 = 2.675, rounded to two decimals, is 2.68 (a tie,
and 268 is even — half-up agrees). -/
theorem round2_mean_ce : round2 ((107 : ℚ) / 40) = 268 / 100 := by
  have hf : ⌊(100 : ℚ) * (107 / 40)⌋ = 267 := by
    rw [Int.floor_eq_iff]
    constructor <;> norm_num
  unfold round2 rhe
  rw [hf]
  rw [if_neg (by norm_num), if_neg (by norm_num), if_neg (by decide)]
  norm_num

/-- The double nearest 3.6 still rounds to two decimals as 3.6: its exact
value exceeds 18/5 by only 2·10⁻¹⁷. -/
theorem round2_double36 :
    round2 ((8106479329266893 : ℚ) / 2251799813685248) = 18 / 5 := by
  have hf : ⌊(100 : ℚ) * (8106479329266893 / 2251799813685248)⌋ = 360 := by
    rw [Int.floor_eq_iff]
    constructor <;> norm_num
  unfold round2 rhe
  rw [hf]
  rw [if_pos (by norm_num)]
  norm_num

/-- The integer rating sum casts to the rational sum of the ratings. -/
theorem ratingSum_cast (rows : List Review) :
    ((ratingSum rows : Int) : ℚ) = (rows.map (fun r => (r.rating : ℚ))).sum := by
  unfold ratingSum
  induction rows with
  | nil => simp
  | cons a l ih =>
      simp only [List.map_cons, List.sum_cons, Int.cast_add]
      rw [ih]

/-- Overwriting a key that the dict holds makes lookup yield the new
value. -/
theorem dlookup_map_set (k : String) (v : Nat) :
    ∀ d : List (String × Nat), d.any (fun p => p.1 = k) = true →
      dlookup (d.map (fun p => if p.1 = k then (k, v) else p)) k = some v := by
  intro d
  induction d with
  | nil => intro h; cases h
  | cons p rest ih =>
      intro h
      by_cases hp : p.1 = k
      · simp [dlookup, hp]
      · have h2 : rest.any (fun p => p.1 = k) = true := by
          simp only [List.any_cons, Bool.or_eq_true, decide_eq_true_eq] at h
          rcases h with h | h
          · exact absurd h hp
          · exact h
        simp [dlookup, hp, ih h2]

/-- Appending a fresh binding makes lookup yield it. -/
theorem dlookup_append_single (k : String) (v : Nat) :
    ∀ d : List (String × Nat), (∀ p ∈ d, p.1 ≠ k) →
      dlookup (d ++ [(k, v)]) k = some v := by
  intro d
  induction d with
  | nil => intro _; simp [dlookup]
  | cons p rest ih =>
      intro h
      have hp : p.1 ≠ k := h p (by simp)
      rw [List.cons_append]
      simp only [dlookup, if_neg hp]
      exact ih (fun q hq => h q (by simp [hq]))

/-- Python dict assignment makes the assigned key's lookup yield the
assigned value. -/
theorem dlookup_dictSet_self (d : List (String × Nat)) (k : String) (v : Nat) :
    dlookup (dictSet d k v) k = some v := by
  unfold dictSet
  by_cases h : d.any (fun p => p.1 = k) = true
  · rw [if_pos h]
    exact dlookup_map_set k v d h
  · rw [if_neg h]
    apply dlookup_append_single
    intro p hp hpk
    exact h (List.any_eq_true.mpr ⟨p, hp, by simp [hpk]⟩)

/-- Overwriting one key leaves lookup of a different key unchanged. -/
theorem dlookup_map_set_ne (k kx : String) (v : Nat) (hne : kx ≠ k) :
    ∀ d : List (String × Nat),
      dlookup (d.map (fun p => if p.1 = kx then (kx, v) else p)) k = dlookup d k := by
  intro d
  induction d with
  | nil => rfl
  | cons p rest ih =>
      by_cases hp : p.1 = kx
      · simp only [List.map_cons, if_pos hp]
        simp only [dlookup, if_neg hne, if_neg (hp ▸ hne : ¬p.1 = k)]
        exact ih
      · simp only [List.map_cons, if_neg hp]
        simp only [dlookup]
        split
        · rfl
        · exact ih

/-- Appending a binding for a different key leaves lookup unchanged. -/
theorem dlookup_append_single_ne (k kx : String) (v : Nat) (hne : kx ≠ k) :
    ∀ d : List (String × Nat), dlookup (d ++ [(kx, v)]) k = dlookup d k := by
  intro d
  induction d with
  | nil => simp [dlookup, if_neg hne]
  | cons p rest ih =>
      rw [List.cons_append]
      simp only [dlookup]
      split
      · rfl
      · exact ih

/-- Python dict assignment leaves lookups of other keys unchanged. -/
theorem dlookup_dictSet_ne (d : List (String × Nat)) (k kx : String) (v : Nat)
    (hne : kx ≠ k) : dlookup (dictSet d kx v) k = dlookup d k := by
  unfold dictSet
  split
  · exact dlookup_map_set_ne k kx v hne d
  · exact dlookup_append_single_ne k kx v hne d

/-- The handler's dict keys are injective over the rating range 1..5. -/
theorem starKey_inj_15 {a b : Int} (ha1 : 1 ≤ a) (ha5 : a ≤ 5)
    (hb1 : 1 ≤ b) (hb5 : b ≤ 5) : starKey a = starKey b → a = b := by
  interval_cases a <;> interval_cases b <;> decide

/-- Over pairs built from a list, `find?` on the key finds the pair built
from the first matching element. -/
theorem find?_pair_of_mem (k : Int) (c : Int → Nat) :
    ∀ l : List Int, k ∈ l →
      (l.map (fun x => (x, c x))).find? (fun p => p.1 = k) = some (k, c k) := by
  intro l
  induction l with
  | nil => intro h; cases h
  | cons a l ih =>
      intro h
      by_cases ha : a = k
      · rw [List.map_cons, List.find?_cons_of_pos _ (by simp [ha]), ha]
      · rw [List.map_cons, List.find?_cons_of_neg _ (by simp [ha])]
        refine ih ?_
        rcases List.mem_cons.mp h with h1 | h1
        · exact absurd h1.symm ha
        · exact h1

/-- Folding the GROUP BY result rows into the star dict: the lookup of a
rating in range yields the group's count when the rating occurs, and is
otherwise untouched. -/
theorem dlookup_fold_star (k : Int) (hk1 : 1 ≤ k) (hk5 : k ≤ 5) :
    ∀ (ps : List (Int × Nat)) (d : List (String × Nat)),
      (∀ p ∈ ps, 1 ≤ p.1 ∧ p.1 ≤ 5) → ((ps.map Prod.fst).Nodup) →
      dlookup (ps.foldl (fun d p => dictSet d (starKey p.1) p.2) d) (starKey k)
        = (ps.find? (fun p => p.1 = k)).elim (dlookup d (starKey k))
            (fun p => some p.2) := by
  intro ps
  induction ps with
  | nil => intro d _ _; rfl
  | cons p ps ih =>
      intro d hb hnd
      rw [List.foldl_cons]
      rw [List.map_cons, List.nodup_cons] at hnd
      have hbp := hb p (by simp)
      have hbr : ∀ q ∈ ps, 1 ≤ q.1 ∧ q.1 ≤ 5 := fun q hq => hb q (by simp [hq])
      by_cases hpk : p.1 = k
      · have hfind : ps.find? (fun q => q.1 = k) = none := by
          rw [List.find?_eq_none]
          intro q hq hqk
          apply hnd.1
          rw [hpk, ← of_decide_eq_true hqk]
          exact List.mem_map_of_mem Prod.fst hq
        rw [ih (dictSet d (starKey p.1) p.2) hbr hnd.2, hfind]
        rw [List.find?_cons_of_pos _ (by simp [hpk])]
        simp only [Option.elim]
        rw [hpk]
        exact dlookup_dictSet_self d (starKey k) p.2
      · have hne : starKey p.1 ≠ starKey k :=
          fun hEq => hpk (starKey_inj_15 hbp.1 hbp.2 hk1 hk5 hEq)
        rw [List.find?_cons_of_neg _ (by simp [hpk])]
        rw [ih (dictSet d (starKey p.1) p.2) hbr hnd.2]
        cases hfind : ps.find? (fun q => q.1 = k) with
        | none =>
            simp only [hfind, Option.elim]
            exact dlookup_dictSet_ne d (starKey k) (starKey p.1) p.2 hne
        | some q => simp only [hfind, Option.elim]

/-- The keys of the GROUP BY rows are the distinct ratings, descending. -/
theorem groupKeys (rows : List Review) :
    (groupByRating rows).map Prod.fst
      = List.insertionSort intGE ((rows.map (fun r => r.rating)).dedup) := by
  unfold groupByRating
  rw [List.map_map]
  exact List.map_id'' (fun x => rfl) _

/-- C7 amended: for every record set with in-range ratings, GET /api/stats
reports `total_reviews` equal to the number of records, an `average_rating`
of 0 when there are no records, and a distribution in which every rating
1..5 — including zero-occurrence ones — maps to its count. The average is
`round(float(AVG), 2)` computed through MySQL's scale-4 DECIMAL and binary64
doubles, which is not always the exact mean rounded to two decimals (see
the counterexample at mean 2.675); on ratings [5, 5, 4, 3, 1] it is the
double nearest 3.6 — serialized as 3.6, and rounding back to 18/5 — with
total 5 and counts 2, 1, 1, 0, 1 for 5..1 stars. -/
theorem get_stats_spec (db : DB)
    (h : ∀ r ∈ db.rows, 1 ≤ r.rating ∧ r.rating ≤ 5) :
    (get_stats db).total_reviews = db.rows.length ∧
    (db.rows = [] → (get_stats db).average_rating = 0) ∧
    (∀ k : Int, 1 ≤ k → k ≤ 5 →
       dlookup (get_stats db).rating_distribution (starKey k)
         = some (db.rows.countP (fun r => r.rating = k))) ∧
    get_stats scenDB =
      { total_reviews := 5,
        average_rating := (8106479329266893 : ℚ) / 2251799813685248,
        rating_distribution :=
          [("5_star", 2), ("4_star", 1), ("3_star", 1), ("2_star", 0),
           ("1_star", 1)] } ∧
    round2 ((get_stats scenDB).average_rating) = 18 / 5 := by
  have hp36 : avgDouble scenDB.rows = (8106479329266893, -51) := by decide
  have havg : (get_stats scenDB).average_rating
      = (8106479329266893 : ℚ) / 2251799813685248 := by
    show dyadicQ (avgDouble scenDB.rows).1 (avgDouble scenDB.rows).2 = _
    rw [hp36]
    exact dyadicQ_m51 _
  refine ⟨rfl, ?_, ?_, ?_, ?_⟩
  · intro h0
    have hp0 : avgDouble ([] : List Review) = (0, 0) := by decide
    show dyadicQ (avgDouble db.rows).1 (avgDouble db.rows).2 = 0
    rw [h0, hp0]
    show dyadicQ 0 0 = 0
    unfold dyadicQ
    rw [if_pos (by decide : (0 : ℤ) ≤ 0)]
    norm_num
  · intro k hk1 hk5
    have hperm := List.perm_insertionSort intGE ((db.rows.map (fun r => r.rating)).dedup)
    have hLnd : (List.insertionSort intGE ((db.rows.map (fun r => r.rating)).dedup)).Nodup :=
      hperm.nodup_iff.mpr (List.nodup_dedup _)
    have hmemL : ∀ x : Int,
        x ∈ List.insertionSort intGE ((db.rows.map (fun r => r.rating)).dedup)
          ↔ x ∈ db.rows.map (fun r => r.rating) := by
      intro x
      rw [hperm.mem_iff, List.mem_dedup]
    have hb : ∀ p ∈ groupByRating db.rows, 1 ≤ p.1 ∧ p.1 ≤ 5 := by
      intro p hp
      unfold groupByRating at hp
      obtain ⟨x, hx, hxp⟩ := List.mem_map.mp hp
      obtain ⟨r, hr, hrx⟩ := List.mem_map.mp ((hmemL x).mp hx)
      rw [← hxp]
      simp only
      rw [← hrx]
      exact h r hr
    have hnd : ((groupByRating db.rows).map Prod.fst).Nodup := by
      rw [groupKeys]
      exact hLnd
    have hfold := dlookup_fold_star k hk1 hk5 (groupByRating db.rows) starDict0 hb hnd
    show dlookup (ratingDist db.rows) (starKey k) = _
    unfold ratingDist
    rw [hfold]
    by_cases hkL : k ∈ List.insertionSort intGE ((db.rows.map (fun r => r.rating)).dedup)
    · have hfq : (groupByRating db.rows).find? (fun p => p.1 = k)
          = some (k, db.rows.countP (fun r => r.rating = k)) := by
        unfold groupByRating
        exact find?_pair_of_mem k _ _ hkL
      rw [hfq]
      rfl
    · have hfq : (groupByRating db.rows).find? (fun p => p.1 = k) = none := by
        rw [List.find?_eq_none]
        intro p hp hpk
        apply hkL
        unfold groupByRating at hp
        obtain ⟨x, hx, hxp⟩ := List.mem_map.mp hp
        have hx2 : p.1 = x := by rw [← hxp]
        rw [← of_decide_eq_true hpk, hx2]
        exact hx
      have hcnt : db.rows.countP (fun r => r.rating = k) = 0 := by
        rw [List.countP_eq_zero]
        intro r hr hrk
        apply hkL
        rw [← of_decide_eq_true hrk]
        exact (hmemL r.rating).mpr (List.mem_map_of_mem _ hr)
      rw [hfq, hcnt]
      simp only [Option.elim]
      interval_cases k <;> decide
  · have htot : (get_stats scenDB).total_reviews = 5 := rfl
    have hdist : (get_stats scenDB).rating_distribution
        = [("5_star", 2), ("4_star", 1), ("3_star", 1), ("2_star", 0),
           ("1_star", 1)] := by decide
    rw [show get_stats scenDB
        = ⟨(get_stats scenDB).total_reviews, (get_stats scenDB).average_rating,
           (get_stats scenDB).rating_distribution⟩ from rfl, htot, havg, hdist]
  · rw [havg]
    exact round2_double36

/-- Witness for the amended C7 at the scenario table. -/
theorem get_stats_spec_witness :
    (∀ r ∈ scenDB.rows, 1 ≤ r.rating ∧ r.rating ≤ 5) ∧
    ((get_stats scenDB).total_reviews = scenDB.rows.length ∧
     (scenDB.rows = [] → (get_stats scenDB).average_rating = 0) ∧
     (∀ k : Int, 1 ≤ k → k ≤ 5 →
        dlookup (get_stats scenDB).rating_distribution (starKey k)
          = some (scenDB.rows.countP (fun r => r.rating = k))) ∧
     get_stats scenDB =
       { total_reviews := 5,
         average_rating := (8106479329266893 : ℚ) / 2251799813685248,
         rating_distribution :=
           [("5_star", 2), ("4_star", 1), ("3_star", 1), ("2_star", 0),
            ("1_star", 1)] } ∧
     round2 ((get_stats scenDB).average_rating) = 18 / 5) :=
  ⟨by decide, get_stats_spec scenDB (by decide)⟩

/-- One row of the counterexample table: only id, rating and timestamp
matter to the stats path. -/
def mkRow (i : Nat) (ra : Int) : Review :=
  ⟨i, "n", "e@x", "p", .JStr "M", ra, "text", i⟩

/-- A table of 40 reviews — 27 rated 3 and 13 rated 2 — whose mean rating
is 107/40 = 2.675 exactly. -/
def db40 : DB :=
  ⟨(List.range 27).map (fun i => mkRow (i + 1) 3)
     ++ (List.range 13).map (fun i => mkRow (i + 28) 2), 41⟩

/-- Counterexample to C7 as stated: on 40 in-range reviews with mean 2.675,
the claim's "mean rounded to 2 decimal places" is 2.68, but the program
computes `round(float(Decimal("2.6750")), 2)`: the double nearest 2.675 is
2.67499999999999982…, so the response carries the double nearest 2.67 —
not 2.68, and not the rounded mean. -/
theorem stats_average_float_counterexample :
    db40.rows.all (fun r => 1 ≤ r.rating && r.rating ≤ 5) = true ∧
    db40.rows.length = 40 ∧
    (db40.rows.map (fun r => (r.rating : ℚ))).sum / db40.rows.length = 107 / 40 ∧
    round2 ((107 : ℚ) / 40) = 268 / 100 ∧
    (get_stats db40).average_rating = (6012305502539612 : ℚ) / 2251799813685248 ∧
    (get_stats db40).average_rating
      ≠ round2 ((db40.rows.map (fun r => (r.rating : ℚ))).sum / db40.rows.length) := by
  have hsum : ratingSum db40.rows = 107 := by decide
  have hlen : db40.rows.length = 40 := by decide
  have hmean : (db40.rows.map (fun r => (r.rating : ℚ))).sum / db40.rows.length
      = 107 / 40 := by
    rw [← ratingSum_cast, hsum, hlen]
    norm_num
  have hp : avgDouble db40.rows = (6012305502539612, -51) := by decide
  have havg : (get_stats db40).average_rating
      = (6012305502539612 : ℚ) / 2251799813685248 := by
    show dyadicQ (avgDouble db40.rows).1 (avgDouble db40.rows).2 = _
    rw [hp]
    exact dyadicQ_m51 _
  refine ⟨by decide, hlen, hmean, round2_mean_ce, havg, ?_⟩
  rw [hmean, round2_mean_ce, havg]
  norm_num

end ReviewApp
